import Mathlib

/-!
Verification of the scene-timeline compositor and export multiplexer of the
JSM-AUTOMATION-TOOLS repository.

The development shallowly embeds the relevant parts of the source:

* `src/services/videoExporter.ts` — `exportVideo` / `exportAudioOnly`:
  per-scene asset preloading, duration resolution, timeline layout,
  codec negotiation, the clocked render loop and recording finalization;
* the interactive `Player` component — its `timeline` `useMemo` and
  `handleGlobalScrub`.

JavaScript numbers are modelled as rationals (`ℚ`); the JavaScript
truthiness-based `x || y` fallback chains are modelled explicitly
(`0` and `undefined`/absent are falsy, every other number is truthy).
Fallible code is modelled with `Except`, and `Promise.all` over per-scene
loads as the fail-fast monadic traversal it is for rejections.
-/

namespace JSM

/-- JavaScript `x || y` for an optional numeric `x` (`number | undefined`):
`undefined` and `0` are falsy and select `y`; any other number is returned. -/
def jsOrOpt (x : Option ℚ) (y : ℚ) : ℚ :=
  match x with
  | some v => if v = 0 then y else v
  | none => y

/-- JavaScript `x || y` for a plain numeric `x`: `0` is falsy and selects `y`. -/
def jsOrNum (x : ℚ) (y : ℚ) : ℚ :=
  if x = 0 then y else x

/-- The `Scene` record (types file, `interface Scene`), restricted to the
fields the compositor reads.  `estimatedDuration` is a required `number`;
`manualDuration`, `imageUrl`, `audioUrl` and `audioDuration` are optional. -/
structure Scene where
  id : String
  sequence : Nat
  scriptText : String
  estimatedDuration : ℚ
  manualDuration : Option ℚ
  imageUrl : Option String
  audioUrl : Option String
  audioDuration : Option ℚ
  deriving DecidableEq, Repr

/-- The exporter's per-scene duration resolution
(`videoExporter.ts` line 89, and identically line 282):
`Math.max(audioBuffer?.duration || 0, scene.manualDuration || scene.estimatedDuration || 5)`.
`audioBufferDuration` is the duration of the decoded audio buffer
(`none` when there is no buffer). -/
def finalDuration (audioBufferDuration : Option ℚ) (s : Scene) : ℚ :=
  max (audioBufferDuration.getD 0)
      (jsOrOpt s.manualDuration (jsOrNum s.estimatedDuration 5))

/-- The interactive player's per-scene duration (Player component,
`timeline` `useMemo`):
`Math.max(s.manualDuration || s.audioDuration || s.estimatedDuration || 5, s.audioDuration || 0)`. -/
def playerDuration (s : Scene) : ℚ :=
  max (jsOrOpt s.manualDuration
        (jsOrOpt s.audioDuration (jsOrNum s.estimatedDuration 5)))
      (s.audioDuration.getD 0)

/-- One entry of the exporter's timeline (`videoExporter.ts` lines 96-99):
the scene annotated with `startTime`/`endTime`; `finalDuration` is the
resolved duration that was accumulated. -/
structure TimelineEntry where
  startTime : ℚ
  endTime : ℚ
  finalDuration : ℚ
  deriving DecidableEq, Repr

/-- The timeline layout loop (`videoExporter.ts` lines 95-100): the running
accumulator `totalDuration` starts at `acc`; each scene gets
`startTime = acc`, `endTime = acc + finalDuration`. -/
def timelineAux (acc : ℚ) : List ℚ → List TimelineEntry
  | [] => []
  | d :: ds => { startTime := acc, endTime := acc + d, finalDuration := d }
      :: timelineAux (acc + d) ds

/-- `timelineScenes` of `exportVideo`, as a function of the scenes' resolved
final durations (the accumulator starts at `0`). -/
def timelineScenes (ds : List ℚ) : List TimelineEntry :=
  timelineAux 0 ds

/-- The accumulator value after the layout loop. -/
def totalAux (acc : ℚ) : List ℚ → ℚ
  | [] => acc
  | d :: ds => totalAux (acc + d) ds

/-- `totalDuration` of `exportVideo` after the layout loop over the scenes'
resolved final durations. -/
def totalDuration (ds : List ℚ) : ℚ :=
  totalAux 0 ds

/-! ### Clocked render loop and scrubber lookup -/

/-- The three things one iteration of the export render loop
(`videoExporter.ts` lines 176-231) can do at master-clock time `t`:
leave the loop and stop the recorder (`if (elapsedSecs >= totalDuration) break`),
draw the active scene's frame, or paint the black fallback frame. -/
inductive FrameAction where
  | stop : FrameAction
  | draw : TimelineEntry → FrameAction
  | fallback : FrameAction
  deriving DecidableEq, Repr

/-- The active-scene lookup of the render loop (`videoExporter.ts` line 190):
`timelineScenes.find(s => elapsedSecs >= s.startTime && elapsedSecs < s.endTime)`. -/
def sceneAt (timeline : List TimelineEntry) (t : ℚ) : Option TimelineEntry :=
  timeline.find? (fun s => decide (s.startTime ≤ t) && decide (t < s.endTime))

/-- One iteration of the export render loop at elapsed time `t`
(`videoExporter.ts` lines 185-221): exit when `t ≥ totalDuration`; otherwise
draw the active scene if the lookup finds one, else paint the black
fallback frame. -/
def renderStep (timeline : List TimelineEntry) (total t : ℚ) : FrameAction :=
  if total ≤ t then FrameAction.stop
  else
    match sceneAt timeline t with
    | some e => FrameAction.draw e
    | none => FrameAction.fallback

/-- JavaScript `Array.prototype.findIndex`: index of the first element
satisfying `p`, or `-1` if none does. -/
def findIndexJS (p : α → Bool) : List α → Int
  | [] => -1
  | x :: xs =>
    if p x then 0
    else if findIndexJS p xs = -1 then -1 else findIndexJS p xs + 1

/-- The player scrubber's scene lookup (Player component, `handleGlobalScrub`):
`timeline.findIndex(s => targetTime >= s.start && targetTime < s.end)`;
`-1` means the scrub is ignored. -/
def scrubSceneIndex (timeline : List TimelineEntry) (t : ℚ) : Int :=
  findIndexJS (fun s => decide (s.startTime ≤ t) && decide (t < s.endTime)) timeline

/-! ### Asset preloading -/

/-- The per-scene result of the exporter's asset preload
(`videoExporter.ts` lines 64-92): the scene together with the decoded
audio buffer's duration (`none` when the scene has no audio or its audio
failed to fetch/decode) and the resolved `finalDuration`. -/
structure LoadedScene where
  scene : Scene
  audioBufferDuration : Option ℚ
  finalDuration : ℚ
  deriving DecidableEq, Repr

/-- What the environment (network, decoder) would do for one scene's assets:
whether the image element fires `onload`, and the decoded duration of the
scene's audio (`none` when the fetch or `decodeAudioData` fails). -/
structure SceneEnv where
  imageLoads : Bool
  decodedAudioDuration : Option ℚ
  deriving DecidableEq, Repr

/-- One scene's load (`videoExporter.ts` lines 64-91): rejects with
`"No image URL"` when `scene.imageUrl` is unset, rejects with
`"Failed to load image for scene <sequence>"` when the image fails to load;
an audio fetch/decode failure is caught (`catch` at line 82) and leaves
`audioBuffer` null.  The resolved duration is `finalDuration` (line 89). -/
def loadSceneAssets (s : Scene) (env : SceneEnv) : Except String LoadedScene :=
  match s.imageUrl with
  | none => Except.error "No image URL"
  | some _ =>
    if env.imageLoads = false then
      Except.error ("Failed to load image for scene " ++ toString s.sequence)
    else
      let audioBufferDuration : Option ℚ :=
        match s.audioUrl with
        | some _ => env.decodedAudioDuration
        | none => none
      Except.ok
        { scene := s
          audioBufferDuration := audioBufferDuration
          finalDuration := finalDuration audioBufferDuration s }

/-- `await Promise.all(scenes.map(...))` (`videoExporter.ts` line 64): the
joined promise rejects with the failing scene's error and otherwise yields
the per-scene results in order. -/
def preloadScenes : List (Scene × SceneEnv) → Except String (List LoadedScene)
  | [] => Except.ok []
  | p :: rest => do
    let l ← loadSceneAssets p.1 p.2
    let ls ← preloadScenes rest
    Except.ok (l :: ls)

/-! ### Codec negotiation and recorder setup -/

/-- The export format enum (`ExportFormat` in the types file). -/
inductive ExportFormat where
  | video720p : ExportFormat
  | video1080p : ExportFormat
  | video2K : ExportFormat
  | video4K : ExportFormat
  | audioOnly : ExportFormat
  deriving DecidableEq, Repr

/-- The ordered container/codec preference list of `exportVideo`
(`videoExporter.ts` lines 109-115). -/
def videoMimeTypes : List String :=
  ["video/mp4; codecs=\"avc1.42E01E, mp4a.40.2\"",
   "video/mp4; codecs=\"avc1.64001E, mp4a.40.2\"",
   "video/mp4",
   "video/webm; codecs=vp9",
   "video/webm"]

/-- The audio-only preference list (`videoExporter.ts` line 256). -/
def audioMimeTypes : List String :=
  ["audio/mp4", "audio/aac", "audio/webm", "audio/ogg"]

/-- Codec negotiation of `exportVideo` (`videoExporter.ts` lines 117-121):
`mimeTypes.find(t => MediaRecorder.isTypeSupported(t)) || ''`, then a
fallback that retries `'video/mp4'` and `'video/webm'`; when nothing is
supported the result is the empty string. -/
def negotiateVideoMime (isTypeSupported : String → Bool) : String :=
  let selected :=
    match videoMimeTypes.find? (fun t => isTypeSupported t) with
    | some t => t
    | none => ""
  if selected = "" then
    if isTypeSupported "video/mp4" then "video/mp4"
    else if isTypeSupported "video/webm" then "video/webm"
    else ""
  else selected

/-- Codec negotiation of `exportAudioOnly` (`videoExporter.ts` line 257). -/
def negotiateAudioMime (isTypeSupported : String → Bool) : String :=
  match audioMimeTypes.find? (fun t => isTypeSupported t) with
  | some t => t
  | none => ""

/-- The `videoBitsPerSecond` table (`videoExporter.ts` lines 123-128, 132):
`bitrates[format] || 5000000`. -/
def bitrateFor : ExportFormat → Nat
  | ExportFormat.video720p => 2500000
  | ExportFormat.video1080p => 5000000
  | ExportFormat.video2K => 8000000
  | ExportFormat.video4K => 15000000
  | ExportFormat.audioOnly => 5000000

/-- The options `exportVideo` passes to `new MediaRecorder`
(`videoExporter.ts` lines 130-133). -/
structure RecorderConfig where
  mimeType : String
  videoBitsPerSecond : Nat
  deriving DecidableEq, Repr

/-- Recorder setup of `exportVideo` (`videoExporter.ts` lines 117-133).
The source constructs the `MediaRecorder` unconditionally with whatever
`negotiateVideoMime` produced — there is no failure branch at this stage,
so the result is always `ok`. -/
def setupVideoRecorder (isTypeSupported : String → Bool)
    (format : ExportFormat) : Except String RecorderConfig :=
  Except.ok
    { mimeType := negotiateVideoMime isTypeSupported
      videoBitsPerSecond := bitrateFor format }

/-! ### Resource lifecycle of one `exportVideo` run -/

/-- The ways one `exportVideo` run can settle (`videoExporter.ts`):
* `assetFailure` — the preload `Promise.all` rejects (line 64);
* `recorderError` — `recorder.onerror` fires (line 153);
* `emptyOutput` — `recorder.onstop` with an empty blob (line 149);
* `success` — `recorder.onstop` with a non-empty blob (line 150). -/
inductive ExitPath where
  | assetFailure : ExitPath
  | recorderError : ExitPath
  | emptyOutput : ExitPath
  | success : ExitPath
  deriving DecidableEq, Repr

/-- Resource acquisition/release events of `exportVideo`. -/
inductive ResourceEvent where
  | createAudioContext : ResourceEvent
  | startTracks : ResourceEvent
  | stopTracks : ResourceEvent
  | closeAudioContext : ResourceEvent
  deriving DecidableEq, Repr

/-- The resources of interest at the moment the export promise settles. -/
structure ResourceState where
  audioContextOpen : Bool
  activeTrackCount : Nat
  deriving DecidableEq, Repr

/-- Effect of one resource event on the resource state.  The combined
stream carries two live tracks (canvas video + audio destination,
`videoExporter.ts` lines 103-107). -/
def applyResourceEvent (st : ResourceState) : ResourceEvent → ResourceState
  | ResourceEvent.createAudioContext => { st with audioContextOpen := true }
  | ResourceEvent.startTracks => { st with activeTrackCount := 2 }
  | ResourceEvent.stopTracks => { st with activeTrackCount := 0 }
  | ResourceEvent.closeAudioContext => { st with audioContextOpen := false }

/-- The resource events that have happened by the time the promise returned
by `exportVideo` settles on each exit path, read off the source:
* the audio context is created at line 58, before the preload;
* a preload rejection (line 64) propagates out of the `async` function
  before any capture stream exists and runs no cleanup;
* the capture tracks start at lines 103-107, before recording;
* `recorder.onerror` (line 153) rejects without any cleanup;
* `recorder.onstop` (lines 141-150) stops all tracks and closes the audio
  context before inspecting the blob, on both the empty-output rejection
  and the success resolution. -/
def resourceEventsOf : ExitPath → List ResourceEvent
  | ExitPath.assetFailure => [ResourceEvent.createAudioContext]
  | ExitPath.recorderError =>
      [ResourceEvent.createAudioContext, ResourceEvent.startTracks]
  | ExitPath.emptyOutput =>
      [ResourceEvent.createAudioContext, ResourceEvent.startTracks,
       ResourceEvent.stopTracks, ResourceEvent.closeAudioContext]
  | ExitPath.success =>
      [ResourceEvent.createAudioContext, ResourceEvent.startTracks,
       ResourceEvent.stopTracks, ResourceEvent.closeAudioContext]

/-- The resource state when the `exportVideo` promise settles on a given
exit path. -/
def exportResourceState (p : ExitPath) : ResourceState :=
  (resourceEventsOf p).foldl applyResourceEvent
    { audioContextOpen := false, activeTrackCount := 0 }

/-- All resources acquired during the attempt have been released. -/
def allResourcesReleased (st : ResourceState) : Prop :=
  st.audioContextOpen = false ∧ st.activeTrackCount = 0

instance (st : ResourceState) : Decidable (allResourcesReleased st) := by
  unfold allResourcesReleased
  infer_instance

/-! ### Recording finalization -/

/-- Finalization of the video recording (`videoExporter.ts` lines 136-150):
`ondataavailable` pushes only chunks with `size > 0`; `onstop` assembles
the chunks into a blob and rejects with
`"Recording failed: Output file is empty."` when its size is `0`,
otherwise resolves.  The value carried is the blob size in bytes. -/
def finalizeVideoRecording (dataSizes : List Nat) : Except String Nat :=
  let chunks := dataSizes.filter (fun n => decide (0 < n))
  let blobSize := chunks.sum
  if blobSize = 0 then Except.error "Recording failed: Output file is empty."
  else Except.ok blobSize

/-- Finalization of the audio-only recording (`videoExporter.ts`
lines 261-268): every data chunk is pushed; `onstop` rejects with
`"Audio export failed: Empty file"` when the blob size is `0`. -/
def finalizeAudioRecording (dataSizes : List Nat) : Except String Nat :=
  let blobSize := dataSizes.sum
  if blobSize = 0 then Except.error "Audio export failed: Empty file"
  else Except.ok blobSize

/-- A scene with no optional field set, used to build concrete test scenes. -/
def baseScene : Scene where
  id := "s"
  sequence := 1
  scriptText := ""
  estimatedDuration := 5
  manualDuration := none
  imageUrl := none
  audioUrl := none
  audioDuration := none

/-! ### Timeline lemmas -/

lemma totalAux_eq (acc : ℚ) (ds : List ℚ) : totalAux acc ds = acc + ds.sum := by
  induction ds generalizing acc with
  | nil => simp [totalAux]
  | cons d ds ih => simp [totalAux, ih, add_assoc]

lemma timelineAux_length (acc : ℚ) (ds : List ℚ) :
    (timelineAux acc ds).length = ds.length := by
  induction ds generalizing acc with
  | nil => rfl
  | cons d ds ih => simp [timelineAux, ih]

lemma timelineAux_getElem? (acc : ℚ) (ds : List ℚ) (i : ℕ) :
    (timelineAux acc ds)[i]? = (ds[i]?).map (fun d =>
      { startTime := acc + (ds.take i).sum
        endTime := acc + (ds.take i).sum + d
        finalDuration := d }) := by
  induction ds generalizing acc i with
  | nil => simp [timelineAux]
  | cons d ds ih =>
    cases i with
    | zero => simp [timelineAux]
    | succ j => simp [timelineAux, ih (acc + d) j, add_assoc]

lemma timelineAux_start_ge (acc : ℚ) (ds : List ℚ)
    (hpos : ∀ d ∈ ds, 0 ≤ d) (i : ℕ) (e : TimelineEntry)
    (he : (timelineAux acc ds)[i]? = some e) : acc ≤ e.startTime := by
  rw [timelineAux_getElem?] at he
  cases h : ds[i]? with
  | none => rw [h] at he; simp at he
  | some d =>
    rw [h] at he
    simp only [Option.map_some', Option.some.injEq] at he
    have hsum : 0 ≤ (ds.take i).sum :=
      List.sum_nonneg (fun x hx => hpos x (List.take_subset i ds hx))
    rw [← he]
    show acc ≤ acc + (ds.take i).sum
    linarith

lemma timelineAux_end_le_total (acc : ℚ) (ds : List ℚ)
    (hpos : ∀ d ∈ ds, 0 ≤ d) (i : ℕ) (e : TimelineEntry)
    (he : (timelineAux acc ds)[i]? = some e) :
    e.endTime ≤ totalAux acc ds := by
  rw [timelineAux_getElem?] at he
  cases h : ds[i]? with
  | none => rw [h] at he; simp at he
  | some d =>
    rw [h] at he
    simp only [Option.map_some', Option.some.injEq] at he
    have hi : i < ds.length := by
      by_contra hcon
      rw [List.getElem?_eq_none (by omega)] at h
      exact Option.noConfusion h
    have hd : ds[i] = d := by
      have := List.getElem?_eq_getElem hi
      rw [h] at this
      exact (Option.some.injEq _ _).mp this.symm
    have hsplit : (ds.take (i + 1)).sum + (ds.drop (i + 1)).sum = ds.sum := by
      rw [← List.sum_append, List.take_append_drop]
    have htake : (ds.take (i + 1)).sum = (ds.take i).sum + d := by
      rw [List.sum_take_succ ds i hi, hd]
    have hdrop : 0 ≤ (ds.drop (i + 1)).sum :=
      List.sum_nonneg (fun x hx => hpos x (List.drop_subset (i + 1) ds hx))
    rw [← he, totalAux_eq]
    show acc + (ds.take i).sum + d ≤ acc + ds.sum
    linarith

lemma timelineAux_entry_shape (acc : ℚ) (ds : List ℚ) (i : ℕ)
    (e : TimelineEntry) (he : (timelineAux acc ds)[i]? = some e) :
    e.endTime = e.startTime + e.finalDuration ∧ e.finalDuration ∈ ds := by
  rw [timelineAux_getElem?] at he
  cases h : ds[i]? with
  | none => rw [h] at he; simp at he
  | some d =>
    rw [h] at he
    simp only [Option.map_some', Option.some.injEq] at he
    constructor
    · rw [← he]
    · rw [← he]
      exact List.getElem?_mem h

lemma timelineAux_adjacent (acc : ℚ) (ds : List ℚ) (i : ℕ)
    (e e' : TimelineEntry) (he : (timelineAux acc ds)[i]? = some e)
    (he' : (timelineAux acc ds)[i + 1]? = some e') :
    e'.startTime = e.endTime := by
  rw [timelineAux_getElem?] at he he'
  cases h' : ds[i + 1]? with
  | none => rw [h'] at he'; simp at he'
  | some d' =>
    rw [h'] at he'
    have hi1 : i + 1 < ds.length := by
      by_contra hcon
      rw [List.getElem?_eq_none (by omega)] at h'
      exact Option.noConfusion h'
    have hi : i < ds.length := by omega
    have h : ds[i]? = some ds[i] := List.getElem?_eq_getElem hi
    rw [h] at he
    simp only [Option.map_some', Option.some.injEq] at he he'
    have htake : (ds.take (i + 1)).sum = (ds.take i).sum + ds[i] :=
      List.sum_take_succ ds i hi
    rw [← he, ← he']
    show acc + (ds.take (i + 1)).sum = acc + (ds.take i).sum + ds[i]
    rw [htake]
    ring

lemma sceneAt_eq : ∀ (ds : List ℚ) (acc : ℚ), (∀ d ∈ ds, 0 < d) →
    ∀ (i : ℕ) (e : TimelineEntry), (timelineAux acc ds)[i]? = some e →
    ∀ t : ℚ, e.startTime ≤ t → t < e.endTime →
    sceneAt (timelineAux acc ds) t = some e := by
  intro ds
  induction ds with
  | nil =>
    intro acc _ i e he
    simp [timelineAux] at he
  | cons d ds ih =>
    intro acc hpos i e he t h1 h2
    cases i with
    | zero =>
      simp only [timelineAux] at he ⊢
      simp only [List.getElem?_cons_zero, Option.some.injEq] at he
      unfold sceneAt
      rw [List.find?_cons_of_pos]
      · rw [he]
      · rw [← he] at h1 h2
        simp only [Bool.and_eq_true, decide_eq_true_eq]
        exact ⟨h1, h2⟩
    | succ j =>
      simp only [timelineAux] at he ⊢
      simp only [List.getElem?_cons_succ] at he
      have hge : acc + d ≤ e.startTime :=
        timelineAux_start_ge (acc + d) ds
          (fun x hx => le_of_lt (hpos x (List.mem_cons_of_mem d hx))) j e he
      have hnot : ¬ t < acc + d := not_lt.mpr (le_trans hge h1)
      unfold sceneAt
      rw [List.find?_cons_of_neg]
      · exact ih (acc + d) (fun x hx => hpos x (List.mem_cons_of_mem d hx))
          j e he t h1 h2
      · simp [hnot]

lemma findIndexJS_timeline_eq : ∀ (ds : List ℚ) (acc : ℚ),
    (∀ d ∈ ds, 0 < d) →
    ∀ (i : ℕ) (e : TimelineEntry), (timelineAux acc ds)[i]? = some e →
    ∀ t : ℚ, e.startTime ≤ t → t < e.endTime →
    findIndexJS (fun s => decide (s.startTime ≤ t) && decide (t < s.endTime))
      (timelineAux acc ds) = (i : Int) := by
  intro ds
  induction ds with
  | nil =>
    intro acc _ i e he
    simp [timelineAux] at he
  | cons d ds ih =>
    intro acc hpos i e he t h1 h2
    cases i with
    | zero =>
      simp only [timelineAux] at he ⊢
      simp only [List.getElem?_cons_zero, Option.some.injEq] at he
      rw [← he] at h1 h2
      simp only [findIndexJS]
      rw [if_pos]
      · simp
      · simp only [Bool.and_eq_true, decide_eq_true_eq]
        exact ⟨h1, h2⟩
    | succ j =>
      simp only [timelineAux] at he ⊢
      simp only [List.getElem?_cons_succ] at he
      have hge : acc + d ≤ e.startTime :=
        timelineAux_start_ge (acc + d) ds
          (fun x hx => le_of_lt (hpos x (List.mem_cons_of_mem d hx))) j e he
      have hnot : ¬ t < acc + d := not_lt.mpr (le_trans hge h1)
      have hrec : findIndexJS
          (fun s => decide (s.startTime ≤ t) && decide (t < s.endTime))
          (timelineAux (acc + d) ds) = (j : Int) :=
        ih (acc + d) (fun x hx => hpos x (List.mem_cons_of_mem d hx))
          j e he t h1 h2
      simp only [findIndexJS]
      rw [if_neg (by simp [hnot]), hrec, if_neg (by omega)]
      push_cast
      ring

/-- Decidable equality for `Except` results, so that concrete runs of the
fallible operations can be checked by evaluation. -/
instance {ε α : Type} [DecidableEq ε] [DecidableEq α] :
    DecidableEq (Except ε α) := fun a b =>
  match a, b with
  | Except.error e, Except.error f =>
    if h : e = f then Decidable.isTrue (by rw [h])
    else Decidable.isFalse (fun hc => h (by injection hc))
  | Except.ok x, Except.ok y =>
    if h : x = y then Decidable.isTrue (by rw [h])
    else Decidable.isFalse (fun hc => h (by injection hc))
  | Except.error _, Except.ok _ => Decidable.isFalse (fun hc => Except.noConfusion hc)
  | Except.ok _, Except.error _ => Decidable.isFalse (fun hc => Except.noConfusion hc)

/-- Unfolding lemma for `preloadScenes` on a non-empty list. -/
lemma preloadScenes_cons (p : Scene × SceneEnv)
    (rest : List (Scene × SceneEnv)) :
    preloadScenes (p :: rest) = (loadSceneAssets p.1 p.2).bind
      (fun l => (preloadScenes rest).bind
        (fun ls => Except.ok (l :: ls))) := rfl

/-! ### Truthiness helper lemmas -/

lemma jsOrOpt_none (y : ℚ) : jsOrOpt none y = y := rfl

lemma jsOrOpt_some_zero (y : ℚ) : jsOrOpt (some 0) y = y := by
  simp [jsOrOpt]

lemma jsOrOpt_some_ne (v y : ℚ) (h : v ≠ 0) : jsOrOpt (some v) y = v := by
  simp [jsOrOpt, h]

lemma jsOrNum_pos (x y : ℚ) (hx : 0 ≤ x) (hy : 0 < y) : 0 < jsOrNum x y := by
  unfold jsOrNum
  split
  · exact hy
  · rename_i h
    exact lt_of_le_of_ne hx (Ne.symm h)

lemma jsOrNum_self_le (x y : ℚ) (hy : 0 ≤ y) : x ≤ jsOrNum x y := by
  unfold jsOrNum
  split
  · rename_i h
    rw [h]
    exact hy
  · exact le_refl x

/-! ## The claims -/

/-- Concrete scenes for the spec's Scenario A: estimated durations
`[5, 3, 6]`, audio on scenes 1 and 3, no manual overrides. -/
def sceneA : Scene :=
  { baseScene with id := "A", sequence := 1, estimatedDuration := 5,
                   audioUrl := some "a.wav" }

def sceneB : Scene :=
  { baseScene with id := "B", sequence := 2, estimatedDuration := 3 }

def sceneC : Scene :=
  { baseScene with id := "C", sequence := 3, estimatedDuration := 6,
                   audioUrl := some "c.wav" }

/-- A scene with a manual override of 2s and an estimate of 5s. -/
def overrideScene : Scene :=
  { baseScene with manualDuration := some 2, estimatedDuration := 5 }

/-- Claim C1, counterexample: with `manualDuration = 2`,
`estimatedDuration = 5` and no audio, the exporter resolves a final
duration of 2 — strictly below the `estimatedDuration` candidate, whereas
the claimed `max(manualDuration, audio, estimatedDuration, floor)` is at
least 5.  The code's `manualDuration || estimatedDuration || 5` discards
the estimate whenever a nonzero manual override is set. -/
theorem final_duration_below_estimate :
    finalDuration none overrideScene = 2 ∧
    overrideScene.estimatedDuration = 5 ∧ ¬ ((5:ℚ) ≤ 2) := by
  refine ⟨?_, rfl, by norm_num⟩
  norm_num [finalDuration, jsOrOpt, jsOrNum, overrideScene, baseScene]

/-- Claim C1 (amended): the resolved final duration is
`max(audio ?? 0, manualDuration || estimatedDuration || 5)` — strictly
positive, never below the decoded audio duration, never below
`estimatedDuration` when no (nonzero) manual override is set; a nonzero
manual override replaces the estimate entirely, so the result is
`max(audio, manualDuration)` even when that is below `estimatedDuration`. -/
theorem final_duration_resolution (a : Option ℚ) (s : Scene)
    (ha : 0 ≤ a.getD 0) (hest : 0 ≤ s.estimatedDuration)
    (hman : 0 ≤ s.manualDuration.getD 0) :
    0 < finalDuration a s ∧
    a.getD 0 ≤ finalDuration a s ∧
    ((s.manualDuration = none ∨ s.manualDuration = some 0) →
      s.estimatedDuration ≤ finalDuration a s) ∧
    (∀ m : ℚ, s.manualDuration = some m → m ≠ 0 →
      finalDuration a s = max (a.getD 0) m) := by
  unfold finalDuration
  refine ⟨?_, le_max_left _ _, ?_, ?_⟩
  · apply lt_max_iff.mpr
    right
    cases hms : s.manualDuration with
    | none =>
      rw [jsOrOpt_none]
      exact jsOrNum_pos _ _ hest (by norm_num)
    | some v =>
      rw [hms] at hman
      simp only [Option.getD_some] at hman
      by_cases hv : v = 0
      · subst hv
        rw [jsOrOpt_some_zero]
        exact jsOrNum_pos _ _ hest (by norm_num)
      · rw [jsOrOpt_some_ne _ _ hv]
        exact lt_of_le_of_ne hman (Ne.symm hv)
  · intro hfalsy
    have hE : s.estimatedDuration ≤ jsOrNum s.estimatedDuration 5 :=
      jsOrNum_self_le _ _ (by norm_num)
    rcases hfalsy with hn | h0
    · rw [hn, jsOrOpt_none]
      exact le_trans hE (le_max_right _ _)
    · rw [h0, jsOrOpt_some_zero]
      exact le_trans hE (le_max_right _ _)
  · intro m hm hm0
    rw [hm, jsOrOpt_some_ne _ _ hm0]

/-- A scene with a nonzero manual override, estimate 4, for the C1 witness. -/
def witnessScene : Scene :=
  { baseScene with manualDuration := some 3, estimatedDuration := 4 }

/-- Witness for `final_duration_resolution` at audio 2s, manual 3s,
estimate 4s. -/
theorem final_duration_resolution_witness :
    (0:ℚ) ≤ (some (2:ℚ)).getD 0 ∧
    (0:ℚ) ≤ witnessScene.estimatedDuration ∧
    (0:ℚ) ≤ witnessScene.manualDuration.getD 0 ∧
    (0 < finalDuration (some 2) witnessScene ∧
     (some (2:ℚ)).getD 0 ≤ finalDuration (some 2) witnessScene ∧
     ((witnessScene.manualDuration = none ∨
       witnessScene.manualDuration = some 0) →
       witnessScene.estimatedDuration ≤ finalDuration (some 2) witnessScene) ∧
     (∀ m : ℚ, witnessScene.manualDuration = some m → m ≠ 0 →
       finalDuration (some 2) witnessScene = max ((some (2:ℚ)).getD 0) m)) :=
  ⟨by decide, by decide, by decide,
   final_duration_resolution (some 2) witnessScene
     (by decide) (by decide) (by decide)⟩

/-- Claim C2, counterexample: on Scenario A's first scene (audio 4.0s,
estimate 5s, no override) the exporter resolves 5, not the claimed 4.0:
`max(4, 5) = 5`. -/
theorem scenario_a_first_scene_duration :
    finalDuration (some 4) sceneA = 5 ∧ (5:ℚ) ≠ 4 := by
  constructor
  · norm_num [finalDuration, jsOrOpt, jsOrNum, sceneA, baseScene]
  · norm_num

/-- Claim C2 (amended): on scenes with decoded audio `[4.0, none, 6.5]`,
estimates `[5, 3, 6]` and no overrides, the exporter computes final
durations `[5, 3, 6.5]`, timeline entries starting at `[0, 5, 8]`, and a
total duration of `14.5` seconds. -/
theorem scenario_a_exporter_values :
    finalDuration (some 4) sceneA = 5 ∧
    finalDuration none sceneB = 3 ∧
    finalDuration (some (13/2)) sceneC = 13/2 ∧
    timelineScenes [5, 3, 13/2] =
      [{ startTime := 0, endTime := 5, finalDuration := 5 },
       { startTime := 5, endTime := 8, finalDuration := 3 },
       { startTime := 8, endTime := 29/2, finalDuration := 13/2 }] ∧
    totalDuration [5, 3, 13/2] = 29/2 := by
  refine ⟨?_, ?_, ?_, ?_, ?_⟩ <;>
    norm_num [finalDuration, jsOrOpt, jsOrNum, sceneA, sceneB, sceneC,
      baseScene, timelineScenes, timelineAux, totalDuration, totalAux]

/-- A scene whose stored audio duration (4s) is below its estimate (5s),
with no manual override. -/
def previewScene : Scene :=
  { baseScene with estimatedDuration := 5, audioUrl := some "a.wav",
                   audioDuration := some 4 }

/-- Claim C3, counterexample: on a scene with audio duration 4s, estimate
5s and no override, the player's timeline uses 4s while the exporter uses
5s — preview and export disagree. -/
theorem player_exporter_duration_disagree :
    playerDuration previewScene = 4 ∧
    finalDuration previewScene.audioDuration previewScene = 5 ∧
    (4:ℚ) ≠ 5 := by
  refine ⟨?_, ?_, by norm_num⟩ <;>
    norm_num [playerDuration, finalDuration, jsOrOpt, jsOrNum,
      previewScene, baseScene]

/-- Claim C3 (amended): assuming the decoded audio duration equals the
scene's stored `audioDuration`, the player's per-scene duration never
exceeds the exporter's; the two agree whenever a nonzero manual override
is set or the scene has no (nonzero) audio duration, but on a scene whose
audio is shorter than its estimate and has no override the exporter is
strictly larger (it takes the estimate, the player takes the audio). -/
theorem player_le_exporter_duration (s : Scene) :
    playerDuration s ≤ finalDuration s.audioDuration s ∧
    (∀ m : ℚ, s.manualDuration = some m → m ≠ 0 →
      playerDuration s = finalDuration s.audioDuration s) ∧
    ((s.audioDuration = none ∨ s.audioDuration = some 0) →
      playerDuration s = finalDuration s.audioDuration s) := by
  unfold playerDuration finalDuration
  refine ⟨?_, ?_, ?_⟩
  · cases hms : s.manualDuration with
    | some v =>
      by_cases hv : v = 0
      · subst hv
        rw [jsOrOpt_some_zero]
        cases has : s.audioDuration with
        | none =>
          rw [jsOrOpt_none]
          simp only [Option.getD_none]
          exact le_of_eq (max_comm _ _)
        | some w =>
          by_cases hw : w = 0
          · subst hw
            rw [jsOrOpt_some_zero]
            simp only [Option.getD_some]
            calc max (jsOrNum s.estimatedDuration 5) 0
                ≤ max 0 (jsOrNum s.estimatedDuration 5) := le_of_eq (max_comm _ _)
              _ ≤ _ := le_refl _
          · rw [jsOrOpt_some_ne _ _ hw]
            simp only [Option.getD_some]
            rw [max_self]
            exact le_max_left _ _
      · rw [jsOrOpt_some_ne _ _ hv, jsOrOpt_some_ne _ _ hv]
        exact le_of_eq (max_comm _ _)
    | none =>
      rw [jsOrOpt_none, jsOrOpt_none]
      cases has : s.audioDuration with
      | none =>
        rw [jsOrOpt_none]
        simp only [Option.getD_none]
        exact le_of_eq (max_comm _ _)
      | some w =>
        by_cases hw : w = 0
        · subst hw
          rw [jsOrOpt_some_zero]
          simp only [Option.getD_some]
          exact le_of_eq (max_comm _ _)
        · rw [jsOrOpt_some_ne _ _ hw]
          simp only [Option.getD_some]
          rw [max_self]
          exact le_max_left _ _
  · intro m hm hm0
    rw [hm, jsOrOpt_some_ne _ _ hm0, jsOrOpt_some_ne _ _ hm0]
    exact max_comm _ _
  · intro hfalsy
    have haud : jsOrOpt s.audioDuration (jsOrNum s.estimatedDuration 5) =
        jsOrNum s.estimatedDuration 5 ∧ s.audioDuration.getD 0 = 0 := by
      rcases hfalsy with hn | h0
      · rw [hn]
        exact ⟨jsOrOpt_none _, rfl⟩
      · rw [h0]
        exact ⟨jsOrOpt_some_zero _, rfl⟩
    rw [haud.1, haud.2]
    exact max_comm _ _

/-- A scene with only a manual override set, for the C3 witness. -/
def overrideOnlyScene : Scene := { baseScene with manualDuration := some 2 }

/-- Witness for `player_le_exporter_duration` on a scene with a 2s manual
override and no audio. -/
theorem player_le_exporter_duration_witness :
    overrideOnlyScene.manualDuration = some 2 ∧ (2:ℚ) ≠ 0 ∧
    overrideOnlyScene.audioDuration = none ∧
    playerDuration overrideOnlyScene =
      finalDuration overrideOnlyScene.audioDuration overrideOnlyScene :=
  ⟨rfl, by decide, rfl,
   (player_le_exporter_duration overrideOnlyScene).2.1 2 rfl (by decide)⟩

/-- Claim C9: a (positive) manual override at or above the decoded audio
duration becomes the final duration exactly; an override below the audio
duration never shrinks the final duration below the audio duration. -/
theorem manual_override_monotonic (s : Scene) (a m : ℚ)
    (ha : 0 ≤ a) (hm : 0 < m) :
    (a ≤ m →
      finalDuration (some a) { s with manualDuration := some m } = m) ∧
    a ≤ finalDuration (some a) { s with manualDuration := some m } := by
  constructor
  · intro ham
    unfold finalDuration
    rw [show ({ s with manualDuration := some m } : Scene).manualDuration
          = some m from rfl]
    rw [jsOrOpt_some_ne _ _ (ne_of_gt hm)]
    simp only [Option.getD_some]
    exact max_eq_right ham
  · unfold finalDuration
    simp only [Option.getD_some]
    exact le_max_left _ _

/-- Witness for `manual_override_monotonic` at audio 2s, override 3s. -/
theorem manual_override_monotonic_witness :
    (0:ℚ) ≤ 2 ∧ (0:ℚ) < 3 ∧ (2:ℚ) ≤ 3 ∧
    finalDuration (some 2) { baseScene with manualDuration := some 3 } = 3 ∧
    (2:ℚ) ≤ finalDuration (some 2) { baseScene with manualDuration := some 3 } :=
  ⟨by decide, by decide, by decide,
   (manual_override_monotonic baseScene 2 3 (by decide) (by decide)).1
     (by decide),
   (manual_override_monotonic baseScene 2 3 (by decide) (by decide)).2⟩

/-- Claim C10: the exporter's timeline layout — `totalDuration` is exactly
the sum of the final durations, the `i`-th entry starts at the sum of the
earlier durations and ends at its start plus its own duration, and the
empty scene list yields no entries and total `0`. -/
theorem timeline_layout_correct (ds : List ℚ) :
    totalDuration ds = ds.sum ∧
    (timelineScenes ds).length = ds.length ∧
    timelineScenes ([] : List ℚ) = [] ∧
    totalDuration ([] : List ℚ) = 0 ∧
    (∀ (i : ℕ) (d : ℚ), ds[i]? = some d →
      (timelineScenes ds)[i]? = some
        { startTime := (ds.take i).sum
          endTime := (ds.take i).sum + d
          finalDuration := d }) := by
  refine ⟨?_, timelineAux_length 0 ds, rfl, rfl, ?_⟩
  · rw [totalDuration, totalAux_eq, zero_add]
  · intro i d hd
    rw [timelineScenes, timelineAux_getElem?, hd]
    simp [zero_add]

/-- Witness for `timeline_layout_correct` on the duration list `[2, 3]`
at index 1. -/
theorem timeline_layout_correct_witness :
    ([(2:ℚ), 3][1]? = some 3) ∧
    (timelineScenes [(2:ℚ), 3])[1]? = some
      { startTime := ([(2:ℚ), 3].take 1).sum
        endTime := ([(2:ℚ), 3].take 1).sum + 3
        finalDuration := 3 } :=
  ⟨by decide, (timeline_layout_correct [2, 3]).2.2.2.2 1 3 (by decide)⟩

/-- Claim C4, counterexample: at `t = totalDuration` the export render
loop exits (`if (elapsedSecs >= totalDuration) break`, stopping the
recorder) *before* the active-scene lookup runs, so no fallback frame is
painted there — the loop-step outcome is `stop`, not `fallback`. -/
theorem render_loop_stops_at_total :
    renderStep (timelineScenes [(5:ℚ)]) (totalDuration [(5:ℚ)]) 5 =
      FrameAction.stop ∧
    FrameAction.stop ≠ FrameAction.fallback := by
  constructor
  · have h : totalDuration [(5:ℚ)] = 5 := by
      norm_num [totalDuration, totalAux]
    rw [h, renderStep, if_pos (le_refl (5:ℚ))]
  · decide

/-- Claim C4 (amended): on a timeline with strictly positive durations,
for every `t` with `entry.start ≤ t < entry.end` both the export render
loop's lookup and the player scrubber's `findIndex` select exactly that
entry (and the loop draws it); at `t` equal to an entry's end, when a next
entry exists, the loop draws that next-starting entry (half-open
intervals).  At `t ≥ totalDuration` the loop stops instead of painting;
the black fallback frame is reserved for a lookup miss below the total,
which positive contiguous durations rule out. -/
theorem render_loop_scene_selection (ds : List ℚ) (hpos : ∀ d ∈ ds, 0 < d)
    (i : ℕ) (e : TimelineEntry) (he : (timelineScenes ds)[i]? = some e)
    (t : ℚ) :
    (e.startTime ≤ t → t < e.endTime →
      renderStep (timelineScenes ds) (totalDuration ds) t =
        FrameAction.draw e ∧
      scrubSceneIndex (timelineScenes ds) t = (i : Int)) ∧
    (∀ e' : TimelineEntry, (timelineScenes ds)[i + 1]? = some e' →
      renderStep (timelineScenes ds) (totalDuration ds) e.endTime =
        FrameAction.draw e') := by
  have hnn : ∀ d ∈ ds, 0 ≤ d := fun d hd => le_of_lt (hpos d hd)
  constructor
  · intro h1 h2
    have hlt : t < totalDuration ds :=
      lt_of_lt_of_le h2 (timelineAux_end_le_total 0 ds hnn i e he)
    constructor
    · rw [renderStep, if_neg (not_le.mpr hlt)]
      rw [timelineScenes] at he ⊢
      rw [sceneAt_eq ds 0 hpos i e he t h1 h2]
    · rw [timelineScenes] at he ⊢
      exact findIndexJS_timeline_eq ds 0 hpos i e he t h1 h2
  · intro e' he'
    have hadj : e'.startTime = e.endTime :=
      timelineAux_adjacent 0 ds i e e' he he'
    obtain ⟨hshape, hmem⟩ := timelineAux_entry_shape 0 ds (i + 1) e' he'
    have hdur : 0 < e'.finalDuration := hpos _ hmem
    have h1 : e'.startTime ≤ e.endTime := le_of_eq hadj
    have h2 : e.endTime < e'.endTime := by
      rw [hshape, hadj]
      linarith
    have hlt : e.endTime < totalDuration ds :=
      lt_of_lt_of_le h2 (timelineAux_end_le_total 0 ds hnn (i + 1) e' he')
    rw [renderStep, if_neg (not_le.mpr hlt)]
    rw [timelineScenes] at he' ⊢
    rw [sceneAt_eq ds 0 hpos (i + 1) e' he' e.endTime h1 h2]

/-- The first entry of the timeline over durations `[2, 3]`. -/
def firstEntry : TimelineEntry :=
  { startTime := 0, endTime := 2, finalDuration := 2 }

/-- Witness for `render_loop_scene_selection` on durations `[2, 3]` at
`t = 1`, inside the first entry. -/
theorem render_loop_scene_selection_witness :
    (∀ d ∈ [(2:ℚ), 3], 0 < d) ∧
    (timelineScenes [(2:ℚ), 3])[0]? = some firstEntry ∧
    firstEntry.startTime ≤ 1 ∧ (1:ℚ) < firstEntry.endTime ∧
    (renderStep (timelineScenes [(2:ℚ), 3]) (totalDuration [(2:ℚ), 3]) 1 =
       FrameAction.draw firstEntry ∧
     scrubSceneIndex (timelineScenes [(2:ℚ), 3]) 1 = (0 : Int)) :=
  ⟨by decide,
   by simp [timelineScenes, timelineAux, firstEntry],
   by decide, by decide,
   (render_loop_scene_selection [2, 3] (by decide) 0 firstEntry
      (by simp [timelineScenes, timelineAux, firstEntry]) 1).1
     (by decide) (by decide)⟩

/-- Claim C5, counterexample: when the runtime supports none of the listed
container/codec combinations, `exportVideo` keeps `selectedMimeType = ''`
and still constructs the `MediaRecorder` and proceeds to record — the
setup stage succeeds with an empty mime type instead of failing
explicitly (the audio-only path behaves the same). -/
theorem recorder_setup_without_codec :
    setupVideoRecorder (fun _ => false) ExportFormat.video1080p =
      Except.ok { mimeType := "", videoBitsPerSecond := 5000000 } ∧
    negotiateVideoMime (fun _ => false) = "" ∧
    negotiateAudioMime (fun _ => false) = "" := by
  refine ⟨?_, ?_, ?_⟩ <;> decide

/-- Claim C5 (amended): codec negotiation evaluates the ordered preference
list once and selects the first combination the runtime reports as
supported; when none is supported the selection degrades to the empty
string and the recorder is still constructed (with the runtime's default
codec), so the export proceeds — no explicit failure is raised at
negotiation time. -/
theorem codec_negotiation (isSup : String → Bool) (format : ExportFormat) :
    (∀ t : String, videoMimeTypes.find? (fun x => isSup x) = some t →
      negotiateVideoMime isSup = t ∧ isSup t = true) ∧
    ((∀ t ∈ videoMimeTypes, isSup t = false) →
      negotiateVideoMime isSup = "" ∧
      setupVideoRecorder isSup format =
        Except.ok { mimeType := "", videoBitsPerSecond := bitrateFor format }) := by
  constructor
  · intro t ht
    have hsup : isSup t = true := List.find?_some ht
    have hmem : t ∈ videoMimeTypes := List.mem_of_find?_eq_some ht
    have hne : t ≠ "" := by
      simp only [videoMimeTypes, List.mem_cons, List.not_mem_nil,
        or_false] at hmem
      rcases hmem with rfl | rfl | rfl | rfl | rfl <;> decide
    constructor
    · unfold negotiateVideoMime
      rw [ht]
      simp [hne]
    · exact hsup
  · intro hall
    have hfind : videoMimeTypes.find? (fun x => isSup x) = none := by
      rw [List.find?_eq_none]
      intro x hx
      rw [hall x hx]
      exact Bool.false_ne_true
    have hmp4 : isSup "video/mp4" = false :=
      hall _ (by simp [videoMimeTypes])
    have hwebm : isSup "video/webm" = false :=
      hall _ (by simp [videoMimeTypes])
    have hneg : negotiateVideoMime isSup = "" := by
      unfold negotiateVideoMime
      rw [hfind]
      simp [hmp4, hwebm]
    exact ⟨hneg, by rw [setupVideoRecorder, hneg]⟩

/-- A runtime that supports exactly the bare `video/mp4` container. -/
def supportsMp4Only : String → Bool := fun t => t == "video/mp4"

/-- Witness for `codec_negotiation`: a runtime supporting only
`video/mp4` selects it (the first supported entry), and a runtime
supporting nothing yields the empty mime type with setup succeeding. -/
theorem codec_negotiation_witness :
    videoMimeTypes.find? (fun x => supportsMp4Only x) = some "video/mp4" ∧
    (negotiateVideoMime supportsMp4Only = "video/mp4" ∧
     supportsMp4Only "video/mp4" = true) ∧
    (∀ t ∈ videoMimeTypes, (fun _ : String => false) t = false) ∧
    (negotiateVideoMime (fun _ => false) = "" ∧
     setupVideoRecorder (fun _ => false) ExportFormat.video720p =
       Except.ok { mimeType := ""
                   videoBitsPerSecond := bitrateFor ExportFormat.video720p }) :=
  ⟨by decide,
   (codec_negotiation supportsMp4Only ExportFormat.video720p).1
     "video/mp4" (by decide),
   by decide,
   (codec_negotiation (fun _ => false) ExportFormat.video720p).2
     (by decide)⟩

/-- A scene whose image loads, with no audio. -/
def loadableScene : Scene := { baseScene with imageUrl := some "img1.png" }

/-- A scene whose image fails to load. -/
def unloadableScene : Scene :=
  { baseScene with sequence := 2, imageUrl := some "img2.png" }

def healthyEnv : SceneEnv := { imageLoads := true, decodedAudioDuration := none }

def brokenImageEnv : SceneEnv :=
  { imageLoads := false, decodedAudioDuration := none }

/-- Claim C6, counterexample: the preload join is `Promise.all`, which is
fail-fast on rejection — with scene 2's image failing, the whole batch
settles as that scene's single error even though scene 1's load succeeds;
no per-scene outcome list survives. -/
theorem preload_aborts_on_image_failure :
    preloadScenes [(loadableScene, healthyEnv), (unloadableScene, brokenImageEnv)] =
      Except.error "Failed to load image for scene 2" ∧
    (loadSceneAssets loadableScene healthyEnv).isOk = true := by
  refine ⟨?_, ?_⟩ <;> decide

/-- Claim C6 (amended): the preload joins the per-scene loads fail-fast —
the first scene whose image fails to load rejects the whole batch with
that scene's error (other scenes' outcomes are not reported), and the
batch succeeds when every scene's image loads; a scene whose audio is
absent or fails to decode still loads successfully, with no audio buffer
(it renders silently) and its resolved final duration. -/
theorem preload_failfast_and_audio_degrade (xs ys : List (Scene × SceneEnv))
    (bad : Scene × SceneEnv) (msg : String)
    (hxs : ∀ p ∈ xs, (loadSceneAssets p.1 p.2).isOk = true)
    (hbad : loadSceneAssets bad.1 bad.2 = Except.error msg) :
    preloadScenes (xs ++ bad :: ys) = Except.error msg ∧
    (∀ ps : List (Scene × SceneEnv),
      (∀ p ∈ ps, (loadSceneAssets p.1 p.2).isOk = true) →
      (preloadScenes ps).isOk = true) ∧
    (∀ (s : Scene) (env : SceneEnv) (u : String),
      s.imageUrl = some u → env.imageLoads = true →
      env.decodedAudioDuration = none →
      ∃ l : LoadedScene, loadSceneAssets s env = Except.ok l ∧
        l.audioBufferDuration = none ∧ l.finalDuration = finalDuration none s) := by
  refine ⟨?_, ?_, ?_⟩
  · induction xs with
    | nil =>
      rw [List.nil_append, preloadScenes_cons, hbad]
      rfl
    | cons x xs ih =>
      have hx : (loadSceneAssets x.1 x.2).isOk = true :=
        hxs x (List.mem_cons_self x xs)
      obtain ⟨l, hl⟩ : ∃ l, loadSceneAssets x.1 x.2 = Except.ok l := by
        cases h : loadSceneAssets x.1 x.2 with
        | error e => rw [h] at hx; exact absurd hx (by simp [Except.isOk, Except.toBool])
        | ok l => exact ⟨l, rfl⟩
      have ihx : preloadScenes (xs ++ bad :: ys) = Except.error msg :=
        ih (fun p hp => hxs p (List.mem_cons_of_mem x hp))
      rw [List.cons_append, preloadScenes_cons, hl]
      show (preloadScenes (xs ++ bad :: ys)).bind
        (fun ls => Except.ok (l :: ls)) = Except.error msg
      rw [ihx]
      rfl
  · intro ps hps
    induction ps with
    | nil => rfl
    | cons x xs ih =>
      have hx : (loadSceneAssets x.1 x.2).isOk = true :=
        hps x (List.mem_cons_self x xs)
      obtain ⟨l, hl⟩ : ∃ l, loadSceneAssets x.1 x.2 = Except.ok l := by
        cases h : loadSceneAssets x.1 x.2 with
        | error e => rw [h] at hx; exact absurd hx (by simp [Except.isOk, Except.toBool])
        | ok l => exact ⟨l, rfl⟩
      have ihx : (preloadScenes xs).isOk = true :=
        ih (fun p hp => hps p (List.mem_cons_of_mem x hp))
      obtain ⟨ls, hls⟩ : ∃ ls, preloadScenes xs = Except.ok ls := by
        cases h : preloadScenes xs with
        | error e => rw [h] at ihx; exact absurd ihx (by simp [Except.isOk, Except.toBool])
        | ok ls => exact ⟨ls, rfl⟩
      rw [preloadScenes_cons, hl]
      show ((preloadScenes xs).bind
        (fun ls => Except.ok (l :: ls))).isOk = true
      rw [hls]
      rfl
  · intro s env u himg hload hdec
    refine ⟨{ scene := s, audioBufferDuration := none,
              finalDuration := finalDuration none s }, ?_, rfl, rfl⟩
    unfold loadSceneAssets
    rw [himg, hload]
    simp only [Bool.true_eq_false, if_false]
    cases hau : s.audioUrl with
    | none => rfl
    | some _ => rw [hdec]

/-- Witness for `preload_failfast_and_audio_degrade`: one healthy scene
followed by one whose image fails. -/
theorem preload_failfast_and_audio_degrade_witness :
    (∀ p ∈ [(loadableScene, healthyEnv)],
      (loadSceneAssets p.1 p.2).isOk = true) ∧
    loadSceneAssets unloadableScene brokenImageEnv =
      Except.error "Failed to load image for scene 2" ∧
    preloadScenes
      ([(loadableScene, healthyEnv)] ++ (unloadableScene, brokenImageEnv) :: []) =
      Except.error "Failed to load image for scene 2" :=
  ⟨by decide, by decide,
   (preload_failfast_and_audio_degrade [(loadableScene, healthyEnv)] []
     (unloadableScene, brokenImageEnv) "Failed to load image for scene 2"
     (by decide) (by decide)).1⟩

/-- Claim C7, counterexample: when the asset preload fails, the promise
rejects with the audio context — created before the preload — still open,
and when `recorder.onerror` fires the rejection leaves both the audio
context open and the two captured stream tracks live: cleanup runs only
inside `recorder.onstop`. -/
theorem asset_failure_leaks_audio_context :
    (exportResourceState ExitPath.assetFailure).audioContextOpen = true ∧
    ¬ allResourcesReleased (exportResourceState ExitPath.assetFailure) ∧
    (exportResourceState ExitPath.recorderError).activeTrackCount = 2 := by
  refine ⟨rfl, ?_, rfl⟩
  decide

/-- Claim C7 (amended): resources are released exactly on the two
`recorder.onstop` exit paths (success and empty-output failure); on an
asset-load failure the export's audio context is left open, and on a
recorder error both the audio context and the captured tracks are left
active. -/
theorem cleanup_only_on_recorder_stop :
    allResourcesReleased (exportResourceState ExitPath.success) ∧
    allResourcesReleased (exportResourceState ExitPath.emptyOutput) ∧
    ¬ allResourcesReleased (exportResourceState ExitPath.assetFailure) ∧
    ¬ allResourcesReleased (exportResourceState ExitPath.recorderError) := by
  decide

/-- Claim C8: whenever the blob assembled at finalization has zero bytes,
both the video export and the audio-only export settle as failures with
their descriptive reasons, and a successful settlement always carries a
non-empty binary. -/
theorem empty_output_rejected (videoSizes audioSizes : List ℕ) :
    ((videoSizes.filter (fun n => decide (0 < n))).sum = 0 →
      finalizeVideoRecording videoSizes =
        Except.error "Recording failed: Output file is empty.") ∧
    (audioSizes.sum = 0 →
      finalizeAudioRecording audioSizes =
        Except.error "Audio export failed: Empty file") ∧
    (∀ n : ℕ, finalizeVideoRecording videoSizes = Except.ok n → 0 < n) ∧
    (∀ n : ℕ, finalizeAudioRecording audioSizes = Except.ok n → 0 < n) := by
  refine ⟨?_, ?_, ?_, ?_⟩
  · intro h
    simp only [finalizeVideoRecording]
    rw [if_pos h]
  · intro h
    simp only [finalizeAudioRecording]
    rw [if_pos h]
  · intro n hn
    simp only [finalizeVideoRecording] at hn
    split at hn
    · exact absurd hn (by simp)
    · rename_i hz
      cases hn
      exact Nat.pos_of_ne_zero hz
  · intro n hn
    simp only [finalizeAudioRecording] at hn
    split at hn
    · exact absurd hn (by simp)
    · rename_i hz
      cases hn
      exact Nat.pos_of_ne_zero hz

/-- Witness for `empty_output_rejected`: a video recording whose only data
event is empty and an audio recording with no data events. -/
theorem empty_output_rejected_witness :
    (([0].filter (fun n => decide (0 < n))).sum = 0 ∧
     finalizeVideoRecording [0] =
       Except.error "Recording failed: Output file is empty.") ∧
    (([] : List ℕ).sum = 0 ∧
     finalizeAudioRecording [] =
       Except.error "Audio export failed: Empty file") :=
  ⟨⟨by decide, (empty_output_rejected [0] []).1 (by decide)⟩,
   ⟨by decide, (empty_output_rejected [0] []).2.1 (by decide)⟩⟩

end JSM
